import Mathlib

/-
Verification of the CPU-side kernel script runtime (cpu_ref/rsCpuScript.cpp):
the ForEach launch coordinator, the kernel module loader with its
line-oriented metadata parsing (RS_COMPATIBILITY_LIB path), global-variable
binding with reference counting, the shared-library instancing helper, and
the invocation dispatch wrappers.

Modelling conventions:
* machine integers (uint32_t, size_t) are modelled as Nat; none of the
  verified paths performs wrapping arithmetic (only min/max/comparison and
  small divisions);
* pointers are Option Nat (none = NULL);
* rsAssert (defined outside this translation unit) only logs and does not
  abort: the source continues past a failed assertion, as its own structure
  shows (the clamp-and-return code after the sub-region assertions at lines
  778-783, and the `if (dimLength == 1)` guard that immediately follows
  `rsAssert(dimLength == 1)` at lines 969-970 would be dead otherwise), so
  failed assertions are counted in the result instead of aborting;
* external collaborators (dlopen/dlsym results, the filesystem, arc4random
  draws, mutexes, log output) are oracle parameters or elided.
-/

set_option autoImplicit false

namespace RsCpuScript

/-- rsMin on uint32_t values (a < b ? a : b). -/
def rsMin (a b : Nat) : Nat := if a < b then a else b

/-- rsMax on uint32_t values (a > b ? a : b). -/
def rsMax (a b : Nat) : Nat := if a > b then a else b

theorem rsMin_eq_min (a b : Nat) : rsMin a b = min a b := by
  unfold rsMin
  split <;> omega

theorem rsMax_eq_max (a b : Nat) : rsMax a b = max a b := by
  unfold rsMax
  split <;> omega

/-- The slice of an Allocation consulted by forEachMtlsSetup: the backing
    pointer (mHal.drvState.lod[0].mallocPtr), the per-axis extents
    (getType()->getDimX/Y/Z()), the element size and the row stride. -/
structure AllocationModel where
  mallocPtr : Option Nat
  dimX : Nat
  dimY : Nat
  dimZ : Nat
  elementSizeBytes : Nat
  stride : Nat
deriving DecidableEq, Repr

/-- RsScriptCall sub-region restriction (start and end bounds per axis). -/
structure RsScriptCall where
  xStart : Nat
  xEnd : Nat
  yStart : Nat
  yEnd : Nat
  zStart : Nat
  zEnd : Nat
deriving DecidableEq, Repr

/-- The MTLaunchStruct fields populated by forEachMtlsSetup and
    forEachKernelSetup. The defaults are the memset(mtls, 0, ...) state. -/
structure MTLaunchStruct where
  xStart : Nat := 0
  xEnd : Nat := 0
  yStart : Nat := 0
  yEnd : Nat := 0
  zStart : Nat := 0
  zEnd : Nat := 0
  arrayStart : Nat := 0
  arrayEnd : Nat := 0
  dimX : Nat := 0
  dimY : Nat := 0
  dimZ : Nat := 0
  usr : Option Nat := none
  usrLen : Nat := 0
  mSliceSize : Nat := 0
  mSliceNum : Nat := 0
  ptrIn : Option Nat := none
  eStrideIn : Nat := 0
  yStrideIn : Nat := 0
  ptrOut : Option Nat := none
  eStrideOut : Nat := 0
  yStrideOut : Nat := 0
  isThreadable : Bool := false
  kernel : Option Nat := none
  sig : Nat := 0
  slot : Nat := 0
deriving DecidableEq, Repr

/-- The all-zero launch descriptor produced by memset(mtls, 0, sizeof ...). -/
def zeroMTLaunch : MTLaunchStruct := {}

/-- Result of forEachMtlsSetup: the launch descriptor, the message reported
    through the error sink of the context (setError) if any, and the number of
    failed (log-only) rsAssert checks. -/
structure SetupResult where
  mtls : MTLaunchStruct
  err : Option String
  assertFails : Nat
deriving DecidableEq, Repr

/-- True when an allocation is supplied but its backing pointer is NULL
    (`ain && ... mallocPtr == NULL`). -/
def hasNullBacking : Option AllocationModel → Bool
  | some a => a.mallocPtr.isNone
  | none => false

/-- The extents governing the iteration domain: taken from the input
    allocation when present, else from the output allocation
    (rsCpuScript.cpp:760-773). -/
def governingDims : Option AllocationModel → Option AllocationModel →
    Option (Nat × Nat × Nat)
  | some a, _ => some (a.dimX, a.dimY, a.dimZ)
  | none, some a => some (a.dimX, a.dimY, a.dimZ)
  | none, none => none

/-- The per-axis sub-region actually in force: none when
    `!sc || (sc->end == 0)` (unrestricted axis). -/
def subFor (sc : Option RsScriptCall) (pick : RsScriptCall → Nat × Nat) :
    Option (Nat × Nat) :=
  match sc with
  | none => none
  | some c => if (pick c).2 = 0 then none else some (pick c)

/-- Outcome of one axis block of forEachMtlsSetup: the start and end bound
    written into the descriptor, the number of failed rsAssert checks, and
    whether the block early-returns (`if (start >= end) return`). -/
structure AxisOut where
  s : Nat
  e : Nat
  fails : Nat
  earlyRet : Bool
deriving DecidableEq, Repr

/-- One axis block of forEachMtlsSetup (rsCpuScript.cpp:775-806).
    Unrestricted (`!sc || end == 0`): end := dim, start stays 0 (memset).
    Restricted: three rsAssert checks, then start/end are clamped with
    rsMin against the extent, and start >= end early-returns. -/
def axisSetup (dim : Nat) (sub : Option (Nat × Nat)) : AxisOut :=
  match sub with
  | none => ⟨0, dim, 0, false⟩
  | some (st, en) =>
    let fails := (if st < dim then 0 else 1) + (if en ≤ dim then 0 else 1) +
      (if st < en then 0 else 1)
    let s := rsMin dim st
    let e := rsMin dim en
    ⟨s, e, fails, decide (s ≥ e)⟩

/-- RsdCpuScriptImpl::forEachMtlsSetup (rsCpuScript.cpp:743-840). -/
def forEachMtlsSetup (ain aout : Option AllocationModel) (usr : Option Nat)
    (usrLen : Nat) (sc : Option RsScriptCall) (mIsThreadable : Bool) :
    SetupResult :=
  if hasNullBacking ain then
    ⟨zeroMTLaunch, some "rsForEach called with null in allocations", 0⟩
  else if hasNullBacking aout then
    ⟨zeroMTLaunch, some "rsForEach called with null out allocations", 0⟩
  else
    match governingDims ain aout with
    | none => ⟨zeroMTLaunch, some "rsForEach called with null allocations", 0⟩
    | some (dX, dY, dZ) =>
      let m0 := { zeroMTLaunch with dimX := dX, dimY := dY, dimZ := dZ }
      let sx := axisSetup dX (subFor sc (fun c => (c.xStart, c.xEnd)))
      let m1 := { m0 with xStart := sx.s, xEnd := sx.e }
      if sx.earlyRet then ⟨m1, none, sx.fails⟩
      else
        let sy := axisSetup dY (subFor sc (fun c => (c.yStart, c.yEnd)))
        let m2 := { m1 with yStart := sy.s, yEnd := sy.e }
        if sy.earlyRet then ⟨m2, none, sx.fails + sy.fails⟩
        else
          let sz := axisSetup dZ (subFor sc (fun c => (c.zStart, c.zEnd)))
          let m3 := { m2 with zStart := sz.s, zEnd := sz.e }
          if sz.earlyRet then ⟨m3, none, sx.fails + sy.fails + sz.fails⟩
          else
            let zAssert : Nat := match ain with
              | some a => if a.dimZ = 0 then 0 else 1
              | none => 0
            let inFields : Option Nat × Nat × Nat := match ain with
              | some a => (a.mallocPtr, a.elementSizeBytes, a.stride)
              | none => (none, 0, 0)
            let outFields : Option Nat × Nat × Nat := match aout with
              | some a => (a.mallocPtr, a.elementSizeBytes, a.stride)
              | none => (none, 0, 0)
            let m4 := { m3 with
              xEnd := rsMax 1 m3.xEnd
              yEnd := rsMax 1 m3.yEnd
              zEnd := rsMax 1 m3.zEnd
              arrayEnd := rsMax 1 m3.arrayEnd
              usr := usr
              usrLen := usrLen
              mSliceSize := 1
              mSliceNum := 0
              isThreadable := mIsThreadable
              ptrIn := inFields.1
              eStrideIn := inFields.2.1
              yStrideIn := inFields.2.2
              ptrOut := outFields.1
              eStrideOut := outFields.2.1
              yStrideOut := outFields.2.2 }
            ⟨m4, none, sx.fails + sy.fails + sz.fails + zAssert⟩

/-- Modelled from the spec: the external parallel dispatcher (launchThreads,
    in rsCpuCore.cpp, which is not part of this source file) iterates the
    rectangular domain of the descriptor and reaches the kernel function
    once per point of [xStart,xEnd) x [yStart,yEnd) x [zStart,zEnd); a
    launch performs zero slice invocations exactly when this count is 0. -/
def kernelInvocations (m : MTLaunchStruct) : Nat :=
  (m.xEnd - m.xStart) * (m.yEnd - m.yStart) * (m.zEnd - m.zStart)

/-- Outcome of forEachKernelSetup (RS_COMPATIBILITY_LIB branch,
    rsCpuScript.cpp:859-873). `mForEachFunctions[slot]` is read with no
    bounds check in this branch, so a slot at or beyond the table length is
    an out-of-bounds read (undefined behaviour), modelled as a separate
    outcome; otherwise the descriptor is produced, with the (log-only)
    `rsAssert(mtls->kernel != NULL)` failure counted. -/
inductive KernelSetupOutcome where
  | oobRead
  | done (m : MTLaunchStruct) (assertFails : Nat)
deriving DecidableEq, Repr

/-- RsdCpuScriptImpl::forEachKernelSetup, RS_COMPATIBILITY_LIB branch. -/
def forEachKernelSetup (forEachFunctions : List (Option Nat))
    (forEachSignatures : List Nat) (slot : Nat) (m : MTLaunchStruct) :
    KernelSetupOutcome :=
  match forEachFunctions[slot]?, forEachSignatures[slot]? with
  | some k, some s =>
    .done { m with slot := slot, kernel := k, sig := s }
      (if k.isNone then 1 else 0)
  | _, _ => .oobRead

/-- Events observable around an invocation: writes to the thread-local
    "currently executing script" reference (mCtx->setTLS) and calls into
    native code. -/
inductive CallEv where
  | setTLSEv (v : Option Nat)
  | nativeEv (name : String)
deriving DecidableEq, Repr

/-- mCtx->setTLS: installs a new value and returns the previous one.
    The thread-local is modelled as explicit state (Option Nat, the id of
    the active script or none). -/
def setTLS (st v : Option Nat) : Option Nat × Option Nat := (st, v)

/-- RsdCpuScriptImpl::invokeRoot (rsCpuScript.cpp:875-880): saves the TLS,
    installs this script, calls mRoot(), restores the saved value. -/
def invokeRoot (self : Nat) (rootRet : Int) (tls0 : Option Nat) :
    Int × Option Nat × List CallEv :=
  let p := setTLS tls0 (some self)
  let ret := rootRet
  let q := setTLS p.2 p.1
  (ret, q.2, [CallEv.setTLSEv (some self), CallEv.nativeEv "root",
    CallEv.setTLSEv p.1])

/-- RsdCpuScriptImpl::invokeFunction (rsCpuScript.cpp:894-906): same
    save/set/call/restore pattern around the exported function call. -/
def invokeFunction (self _slot : Nat) (tls0 : Option Nat) :
    Option Nat × List CallEv :=
  let p := setTLS tls0 (some self)
  let q := setTLS p.2 p.1
  (q.2, [CallEv.setTLSEv (some self), CallEv.nativeEv "invokeFunction",
    CallEv.setTLSEv p.1])

/-- RsdCpuScriptImpl::invokeInit (rsCpuScript.cpp:882-886): calls mInit()
    directly when present; no thread-local manipulation appears in this
    wrapper. -/
def invokeInit (mInitPresent : Bool) (tls0 : Option Nat) :
    Option Nat × List CallEv :=
  if mInitPresent then (tls0, [CallEv.nativeEv "init"]) else (tls0, [])

/-- RsdCpuScriptImpl::invokeFreeChildren (rsCpuScript.cpp:888-892): calls
    mFreeChildren() directly when present; no thread-local manipulation
    appears in this wrapper. -/
def invokeFreeChildren (mFreeChildrenPresent : Bool) (tls0 : Option Nat) :
    Option Nat × List CallEv :=
  if mFreeChildrenPresent then (tls0, [CallEv.nativeEv ".rs.dtor"])
  else (tls0, [])

/-- RsdCpuScriptImpl::invokeForEach (rsCpuScript.cpp:843-857): runs
    forEachMtlsSetup and forEachKernelSetup, then hands the descriptor to
    launchThreads bracketed by the TLS save/set/restore. -/
def invokeForEach (self slot : Nat) (ain aout : Option AllocationModel)
    (usr : Option Nat) (usrLen : Nat) (sc : Option RsScriptCall)
    (mIsThreadable : Bool) (forEachFunctions : List (Option Nat))
    (forEachSignatures : List Nat) (tls0 : Option Nat) :
    Option Nat × List CallEv × SetupResult × KernelSetupOutcome :=
  let setup := forEachMtlsSetup ain aout usr usrLen sc mIsThreadable
  let ks := forEachKernelSetup forEachFunctions forEachSignatures slot
    setup.mtls
  let p := setTLS tls0 (some self)
  let q := setTLS p.2 p.1
  (q.2, [CallEv.setTLSEv (some self), CallEv.nativeEv "launchThreads",
    CallEv.setTLSEv p.1], setup, ks)

/-- Reference-count events issued by Element::incRefs/decRefs. -/
inductive RefEv where
  | incEv (o : Nat)
  | decEv (o : Nat)
deriving DecidableEq, Repr

/-- Adjust the reference count of one object by d. -/
def bumpRef (refs : Nat → Int) (o : Nat) (d : Int) : Nat → Int :=
  fun x => if x = o then refs x + d else refs x

/-- elem->incRefs applied along a run of object handles. -/
def incRefs (refs : Nat → Int) (objs : List Nat) : Nat → Int :=
  objs.foldl (fun f o => bumpRef f o 1) refs

/-- elem->decRefs applied along a run of object handles. -/
def decRefs (refs : Nat → Int) (objs : List Nat) : Nat → Int :=
  objs.foldl (fun f o => bumpRef f o (-1)) refs

/-- Result of setGlobalVarWithElemDims: reference counts, the slot
    contents after the memcpy, the inc/dec event trace, and the number of
    failed (log-only) rsAssert checks. -/
structure SlotSetResult where
  refs : Nat → Int
  slotData : List (List Nat)
  trace : List RefEv
  assertFails : Nat

/-- RsdCpuScriptImpl::setGlobalVarWithElemDims (rsCpuScript.cpp:949-988).
    Data is modelled at element granularity: `data` and `curSlot` list, per
    element, the reference-counted object handles that
    Element::incRefs/decRefs visit; `dims0` is dims[0] and `dimLengthBytes`
    the byte-denominated dimLength argument (divided by sizeof(int) before
    the single-dimension check). The trailing memcpy copies the incoming
    bytes over the slot unconditionally. -/
def setGlobalVarWithElemDims (destPresent : Bool)
    (data curSlot : List (List Nat)) (dims0 : Nat) (dimLengthBytes : Nat)
    (refs : Nat → Int) : SlotSetResult :=
  if ¬ destPresent then ⟨refs, curSlot, [], 0⟩
  else
    let dimLength := dimLengthBytes / 4
    let aFail : Nat := if dimLength = 1 then 0 else 1
    if dimLength = 1 then
      let incoming := (data.take dims0).flatten
      let outgoing := (curSlot.take dims0).flatten
      ⟨decRefs (incRefs refs incoming) outgoing, data,
        incoming.map RefEv.incEv ++ outgoing.map RefEv.decEv, aFail⟩
    else
      ⟨refs, data, [], aFail⟩

/-- The six symbol-table arrays allocated by init
    (RS_COMPATIBILITY_LIB branch). -/
inductive Arr where
  | fieldIsObject
  | fieldAddress
  | invokeFunctions
  | forEachSignatures
  | forEachFunctions
  | boundAllocs
deriving DecidableEq, Repr, Fintype

/-- Heap/handle events issued by init: array allocation (new[]), array
    release (delete[] on a non-null pointer), and dlclose of the mapped
    module. -/
inductive Ev where
  | alloc (a : Arr)
  | free (a : Arr)
  | dlclose
deriving DecidableEq, Repr

/-- Which of the six arrays have been allocated so far. -/
structure AllocFlags where
  fieldIsObject : Bool
  fieldAddress : Bool
  invokeFunctions : Bool
  forEachSignatures : Bool
  forEachFunctions : Bool
  boundAllocs : Bool
deriving DecidableEq, Repr

def noAllocs : AllocFlags := ⟨false, false, false, false, false, false⟩

/-- Allocation events in the order init performs them
    (rsCpuScript.cpp:526, 531, 569, 605, 609, 672). -/
def allocEvents (f : AllocFlags) : List Ev :=
  (if f.fieldIsObject then [Ev.alloc Arr.fieldIsObject] else []) ++
  (if f.fieldAddress then [Ev.alloc Arr.fieldAddress] else []) ++
  (if f.invokeFunctions then [Ev.alloc Arr.invokeFunctions] else []) ++
  (if f.forEachSignatures then [Ev.alloc Arr.forEachSignatures] else []) ++
  (if f.forEachFunctions then [Ev.alloc Arr.forEachFunctions] else []) ++
  (if f.boundAllocs then [Ev.alloc Arr.boundAllocs] else [])

/-- Release events of the `error:` label (rsCpuScript.cpp:691-696), in the
    order of the delete[] statements; delete[] of a never-allocated (null)
    pointer releases nothing. -/
def freeEvents (f : AllocFlags) : List Ev :=
  (if f.invokeFunctions then [Ev.free Arr.invokeFunctions] else []) ++
  (if f.forEachFunctions then [Ev.free Arr.forEachFunctions] else []) ++
  (if f.fieldAddress then [Ev.free Arr.fieldAddress] else []) ++
  (if f.fieldIsObject then [Ev.free Arr.fieldIsObject] else []) ++
  (if f.forEachSignatures then [Ev.free Arr.forEachSignatures] else []) ++
  (if f.boundAllocs then [Ev.free Arr.boundAllocs] else [])

/-- The symbol table populated by a successful init. -/
structure SymbolTable where
  fieldIsObject : List Bool
  fieldAddress : List (Option Nat)
  invokeFunctions : List Nat
  forEachSignatures : List Nat
  forEachFunctions : List (Option Nat)
  exportedVariableCount : Nat
  exportedFunctionCount : Nat
deriving DecidableEq, Repr

/-- Result of init: success flag, the heap/handle event trace, the symbol
    table (on success), and the number of failed (log-only) rsAssert
    checks. -/
structure InitResult where
  ok : Bool
  trace : List Ev
  table : Option SymbolTable
  assertFails : Nat
deriving DecidableEq, Repr

/-- The oracle inputs of one init run (RS_COMPATIBILITY_LIB branch):
    whether loadSharedLibrary returned a handle, and the .rs.info line
    stream section by section. In each entry list, a missing element or a
    `none` element is a failed strgets/sscanf on that line; for symbol
    lines the inner Option Nat is the dlsym result (none = symbol not
    found). A count of `none` is a failed/unparsable count line. -/
structure InitInput where
  soLoads : Bool
  varCount? : Option Nat
  varEntries : List (Option (Option Nat))
  funcCount? : Option Nat
  funcEntries : List (Option (Option Nat))
  forEachCount? : Option Nat
  forEachEntries : List (Option (Nat × Option Nat))
  objectSlotCount? : Option Nat
  objectSlotEntries : List (Option Nat)
deriving DecidableEq, Repr

/-- Export-variable loop (rsCpuScript.cpp:535-553): one line per variable;
    a failed line read aborts, a null dlsym result is tolerated ("Not a
    critical error when a global variable is not found). -/
def readVars : Nat → List (Option (Option Nat)) → Option (List (Option Nat))
  | 0, _ => some []
  | _ + 1, [] => none
  | _ + 1, none :: _ => none
  | n + 1, some a :: rest => (readVars n rest).map (a :: ·)

/-- Export-function loop (rsCpuScript.cpp:573-591): a failed line read or
    a null dlsym result aborts the load. -/
def readFuncs : Nat → List (Option (Option Nat)) → Option (List Nat)
  | 0, _ => some []
  | _ + 1, [] => none
  | _ + 1, none :: _ => none
  | _ + 1, some none :: _ => none
  | n + 1, some (some p) :: rest => (readFuncs n rest).map (p :: ·)

/-- ForEach-kernel loop (rsCpuScript.cpp:613-641), entered with the running
    slot index: a failed line read or parse aborts; a null dlsym result for
    the ".expand" symbol aborts except at slot 0 ("Ignore missing
    root.expand functions. root() is always specified at location 0"). -/
def readForEach :
    Nat → Nat → List (Option (Nat × Option Nat)) →
    Option (List (Nat × Option Nat))
  | _, 0, _ => some []
  | _, _ + 1, [] => none
  | _, _ + 1, none :: _ => none
  | i, n + 1, some (sig, addr) :: rest =>
    if i ≠ 0 ∧ addr = none then none
    else (readForEach (i + 1) n rest).map ((sig, addr) :: ·)

/-- Object-slot loop line reads (rsCpuScript.cpp:655-663): a failed line
    read or parse aborts; the parsed variable numbers are returned. -/
def readObjSlots : Nat → List (Option Nat) → Option (List Nat)
  | 0, _ => some []
  | _ + 1, [] => none
  | _ + 1, none :: _ => none
  | n + 1, some v :: rest => (readObjSlots n rest).map (v :: ·)

/-- Applies the parsed object-slot records to the object-flag vector
    (rsCpuScript.cpp:665-667): `if (varNum < varCount)
    mFieldIsObject[varNum] = true;` - an out-of-range record writes
    nothing. -/
def applyObjSlots (varCount : Nat) (flags : List Bool) (nums : List Nat) :
    List Bool :=
  nums.foldl (fun fl n => if n < varCount then fl.set n true else fl) flags

/-- The `error:` label (rsCpuScript.cpp:688-700): release every allocated
    array, dlclose the handle when one was mapped, return false. -/
def mkError (f : AllocFlags) (soOpen : Bool) (aFail : Nat) : InitResult :=
  ⟨false, allocEvents f ++ freeEvents f ++
    (if soOpen then [Ev.dlclose] else []), none, aFail⟩

/-- Control flow of RsdCpuScriptImpl::init (RS_COMPATIBILITY_LIB branch,
    rsCpuScript.cpp:486-681), threaded as an Except so that every `goto
    error` carries the arrays allocated so far (and the failed-assert
    count). The count-guarded loops are folded into the read functions:
    reading zero lines always succeeds, matching the `if (count > 0)`
    guards, while the allocation flags keep the guards explicitly. -/
def initE (inp : InitInput) :
    Except (AllocFlags × Nat) (AllocFlags × SymbolTable × Nat) :=
  if ¬ inp.soLoads then .error (noAllocs, 0)
  else
    match inp.varCount? with
    | none => .error (noAllocs, 0)
    | some varCount =>
      let f1 : AllocFlags := { noAllocs with
        fieldIsObject := varCount != 0, fieldAddress := varCount != 0 }
      match readVars varCount inp.varEntries with
      | none => .error (f1, 0)
      | some fieldAddress =>
        match inp.funcCount? with
        | none => .error (f1, 0)
        | some funcCount =>
          let f2 := { f1 with invokeFunctions := funcCount != 0 }
          match readFuncs funcCount inp.funcEntries with
          | none => .error (f2, 0)
          | some invokeFns =>
            match inp.forEachCount? with
            | none => .error (f2, 0)
            | some forEachCount =>
              let f3 := { f2 with
                forEachSignatures := forEachCount != 0,
                forEachFunctions := forEachCount != 0 }
              match readForEach 0 forEachCount inp.forEachEntries with
              | none => .error (f3, 0)
              | some fePairs =>
                match inp.objectSlotCount? with
                | none => .error (f3, 0)
                | some objectSlotCount =>
                  let aFail : Nat :=
                    if objectSlotCount ≠ 0 ∧ varCount = 0 then 1 else 0
                  match readObjSlots objectSlotCount inp.objectSlotEntries with
                  | none => .error (f3, aFail)
                  | some varNums =>
                    let f4 := { f3 with boundAllocs := varCount != 0 }
                    .ok (f4,
                      ⟨applyObjSlots varCount
                          (List.replicate varCount false) varNums,
                        fieldAddress, invokeFns, fePairs.map Prod.fst,
                        fePairs.map Prod.snd, varCount, funcCount⟩,
                      aFail)

/-- RsdCpuScriptImpl::init (RS_COMPATIBILITY_LIB branch): assembles the
    result of initE; the soOpen argument of the error path equals soLoads
    because the only failure with no mapped handle is the load failure
    itself. -/
def init (inp : InitInput) : InitResult :=
  match initE inp with
  | .error (f, af) => mkError f inp.soLoads af
  | .ok (f, t, af) => ⟨true, allocEvents f, some t, af⟩

/-- The per-character mapping of getRandomString (rsCpuScript.cpp:48-60):
    r = arc4random() & 0xffff; r %= 62; then lowercase for r < 26,
    uppercase for r < 52, digit otherwise. -/
def randChar (r : Nat) : Char :=
  let r2 := (r % 65536) % 62
  if r2 < 26 then Char.ofNat ('a'.toNat + r2)
  else if r2 < 52 then Char.ofNat ('A'.toNat + (r2 - 26))
  else Char.ofNat ('0'.toNat + (r2 - 52))

/-- getRandomString (rsCpuScript.cpp:46-64): a len-length string of random
    characters from [A-Za-z0-9], one arc4random draw per position. -/
def getRandomString (draws : Nat → Nat) (len : Nat) : String :=
  String.mk ((List.range len).map (fun i => randChar (draws i)))

/-- The 62-symbol alphabet [a-z][A-Z][0-9] in the order randChar maps
    residues to characters. -/
def alphabet62 : List Char :=
  "abcdefghijklmnopqrstuvwxyzABCDEFGHIJKLMNOPQRSTUVWXYZ0123456789".toList

/-- The random suffix produced when the i-th draw has residue v i; used to
    count the distinct suffixes getRandomString(6) ranges over. -/
def vecString (v : Fin 6 → Fin 62) : String :=
  getRandomString (fun i => if h : i < 6 then (v ⟨i, h⟩).val else 0) 6

/-- The cache subdirectory used for instancing symlinks
    (rsCpuScript.cpp:107-108). -/
def cacheSubdir (cacheDir : String) : String :=
  cacheDir ++ "/com.android.renderscript.cache/"

/-- The randomized symlink name (rsCpuScript.cpp:116-120):
    cacheSubdir + "librs." + resName + "#" + suffix + ".so". -/
def aliasSOName (cacheDir resName suffix : String) : String :=
  cacheSubdir cacheDir ++ "librs." ++ resName ++ "#" ++ suffix ++ ".so"

/-- The filesystem (directory entries) and the process-wide LoadedLibraries
    set consulted by loadSOHelper. -/
structure SOState where
  fsEntries : List String
  loadedLibraries : List String
deriving DecidableEq, Repr

/-- Filesystem/loader events issued by loadSOHelper. -/
inductive SOEv where
  | dlopenEv (name : String)
  | symlinkEv (linkName target : String)
  | unlinkEv (name : String)
deriving DecidableEq, Repr

/-- loadSOHelper (rsCpuScript.cpp:81-137). Oracle parameters: the
    arc4random draws, the dlopen results per name (dlo), and whether the
    cache directory exists or could be created. access(origName) fails when
    the artifact is not a filesystem entry; symlink fails when the target
    name already exists; unlink of the just-created entry removes it. -/
def loadSOHelper (origName cacheDir resName : String) (draws : Nat → Nat)
    (dlo : String → Option Nat) (cacheDirOk : Bool) (st : SOState) :
    Option Nat × SOState × List SOEv :=
  if origName ∉ st.fsEntries then (none, st, [])
  else if origName ∉ st.loadedLibraries then
    match dlo origName with
    | some h => (some h,
        { st with loadedLibraries := origName :: st.loadedLibraries },
        [SOEv.dlopenEv origName])
    | none => (none, st, [SOEv.dlopenEv origName])
  else if ¬ cacheDirOk then (none, st, [])
  else
    let newName := aliasSOName cacheDir resName (getRandomString draws 6)
    if newName ∈ st.fsEntries then (none, st, [])
    else
      let st1 := { st with fsEntries := newName :: st.fsEntries }
      let st2 := { st1 with fsEntries := st1.fsEntries.erase newName }
      match dlo newName with
      | some h => (some h,
          { st2 with loadedLibraries := newName :: st2.loadedLibraries },
          [SOEv.symlinkEv newName origName, SOEv.dlopenEv newName,
            SOEv.unlinkEv newName])
      | none => (none, st2,
          [SOEv.symlinkEv newName origName, SOEv.dlopenEv newName,
            SOEv.unlinkEv newName])

/-! Helper lemmas about the per-axis block. -/

theorem axisSetup_none (dim : Nat) : axisSetup dim none = ⟨0, dim, 0, false⟩ :=
  rfl

theorem axisSetup_good (dim st en : Nat) (h1 : st < en) (h2 : en ≤ dim) :
    axisSetup dim (some (st, en)) = ⟨st, en, 0, false⟩ := by
  have h3 : st < dim := Nat.lt_of_lt_of_le h1 h2
  have hs : rsMin dim st = st := by unfold rsMin; split <;> omega
  have he : rsMin dim en = en := by unfold rsMin; split <;> omega
  simp only [axisSetup, hs, he, AxisOut.mk.injEq]
  refine ⟨trivial, trivial, ?_, ?_⟩
  · simp [h1, h2, h3]
  · simp only [decide_eq_false_iff_not]
    omega

theorem axisSetup_early (dim st en : Nat) (h : rsMin dim en ≤ rsMin dim st) :
    (axisSetup dim (some (st, en))).earlyRet = true ∧
    (axisSetup dim (some (st, en))).e ≤ (axisSetup dim (some (st, en))).s := by
  simp only [axisSetup, decide_eq_true_eq, ge_iff_le]
  exact ⟨h, h⟩

/-- C1: for a launch with at least one buffer present and every supplied
    buffer backed, and no sub-region restriction (sc null or all end fields
    zero), forEachMtlsSetup reports no error and computes the domain
    (0,max(X,1)) x (0,max(Y,1)) x (0,max(Z,1)) from the governing buffer
    extents (input preferred over output). -/
theorem c1_unrestricted_domain (ain aout : Option AllocationModel)
    (usr : Option Nat) (usrLen : Nat) (sc : Option RsScriptCall) (thr : Bool)
    (dX dY dZ : Nat)
    (hdims : governingDims ain aout = some (dX, dY, dZ))
    (hin : hasNullBacking ain = false) (hout : hasNullBacking aout = false)
    (hsc : sc = none ∨
      ∃ c, sc = some c ∧ c.xEnd = 0 ∧ c.yEnd = 0 ∧ c.zEnd = 0) :
    (forEachMtlsSetup ain aout usr usrLen sc thr).err = none ∧
    (forEachMtlsSetup ain aout usr usrLen sc thr).mtls.xStart = 0 ∧
    (forEachMtlsSetup ain aout usr usrLen sc thr).mtls.yStart = 0 ∧
    (forEachMtlsSetup ain aout usr usrLen sc thr).mtls.zStart = 0 ∧
    (forEachMtlsSetup ain aout usr usrLen sc thr).mtls.xEnd = max dX 1 ∧
    (forEachMtlsSetup ain aout usr usrLen sc thr).mtls.yEnd = max dY 1 ∧
    (forEachMtlsSetup ain aout usr usrLen sc thr).mtls.zEnd = max dZ 1 := by
  have hsubx : subFor sc (fun c => (c.xStart, c.xEnd)) = none := by
    rcases hsc with h | ⟨c, hc, hx, _, _⟩
    · simp [h, subFor]
    · simp [hc, subFor, hx]
  have hsuby : subFor sc (fun c => (c.yStart, c.yEnd)) = none := by
    rcases hsc with h | ⟨c, hc, _, hy, _⟩
    · simp [h, subFor]
    · simp [hc, subFor, hy]
  have hsubz : subFor sc (fun c => (c.zStart, c.zEnd)) = none := by
    rcases hsc with h | ⟨c, hc, _, _, hz⟩
    · simp [h, subFor]
    · simp [hc, subFor, hz]
  simp [forEachMtlsSetup, hin, hout, hdims, hsubx, hsuby, hsubz,
    axisSetup_none, zeroMTLaunch, rsMax_eq_max, Nat.max_comm]

/-- C1 witness: a 5x0x0 input buffer with backing storage and no
    restriction yields domain (0,5) x (0,1) x (0,1). -/
theorem c1_unrestricted_domain_witness :
    (forEachMtlsSetup (some ⟨some 100, 5, 0, 0, 4, 20⟩) none none 0 none
      true).err = none ∧
    (forEachMtlsSetup (some ⟨some 100, 5, 0, 0, 4, 20⟩) none none 0 none
      true).mtls.xStart = 0 ∧
    (forEachMtlsSetup (some ⟨some 100, 5, 0, 0, 4, 20⟩) none none 0 none
      true).mtls.yStart = 0 ∧
    (forEachMtlsSetup (some ⟨some 100, 5, 0, 0, 4, 20⟩) none none 0 none
      true).mtls.zStart = 0 ∧
    (forEachMtlsSetup (some ⟨some 100, 5, 0, 0, 4, 20⟩) none none 0 none
      true).mtls.xEnd = max 5 1 ∧
    (forEachMtlsSetup (some ⟨some 100, 5, 0, 0, 4, 20⟩) none none 0 none
      true).mtls.yEnd = max 0 1 ∧
    (forEachMtlsSetup (some ⟨some 100, 5, 0, 0, 4, 20⟩) none none 0 none
      true).mtls.zEnd = max 0 1 :=
  c1_unrestricted_domain (some ⟨some 100, 5, 0, 0, 4, 20⟩) none none 0 none
    true 5 0 0 rfl rfl rfl (Or.inl rfl)

theorem axisSetup_e_le_s_of_early (dim : Nat) (sub : Option (Nat × Nat))
    (h : (axisSetup dim sub).earlyRet = true) :
    (axisSetup dim sub).e ≤ (axisSetup dim sub).s := by
  match sub with
  | none => simp [axisSetup_none] at h
  | some (st, en) =>
    simp only [axisSetup, decide_eq_true_eq, ge_iff_le] at h ⊢
    exact h

/-- C2: with valid buffers and a supplied sub-region, (a) when every
    restricted axis satisfies start < end <= extent the computed domain is
    the clamped sub-region (restricted axes keep their bounds, unrestricted
    axes get the full floored extent) with no error; (b) whenever some
    restricted axis has start >= end after clamping to the extent, the
    launch performs zero kernel invocations and reports no error. -/
theorem c2_subregion_domain (ain aout : Option AllocationModel)
    (usr : Option Nat) (usrLen : Nat) (thr : Bool) (c : RsScriptCall)
    (dX dY dZ : Nat)
    (hdims : governingDims ain aout = some (dX, dY, dZ))
    (hin : hasNullBacking ain = false) (hout : hasNullBacking aout = false) :
    ((c.xEnd ≠ 0 → c.xStart < c.xEnd ∧ c.xEnd ≤ dX) →
     (c.yEnd ≠ 0 → c.yStart < c.yEnd ∧ c.yEnd ≤ dY) →
     (c.zEnd ≠ 0 → c.zStart < c.zEnd ∧ c.zEnd ≤ dZ) →
      (forEachMtlsSetup ain aout usr usrLen (some c) thr).err = none ∧
      (forEachMtlsSetup ain aout usr usrLen (some c) thr).mtls.xStart =
        (if c.xEnd = 0 then 0 else c.xStart) ∧
      (forEachMtlsSetup ain aout usr usrLen (some c) thr).mtls.xEnd =
        (if c.xEnd = 0 then max dX 1 else c.xEnd) ∧
      (forEachMtlsSetup ain aout usr usrLen (some c) thr).mtls.yStart =
        (if c.yEnd = 0 then 0 else c.yStart) ∧
      (forEachMtlsSetup ain aout usr usrLen (some c) thr).mtls.yEnd =
        (if c.yEnd = 0 then max dY 1 else c.yEnd) ∧
      (forEachMtlsSetup ain aout usr usrLen (some c) thr).mtls.zStart =
        (if c.zEnd = 0 then 0 else c.zStart) ∧
      (forEachMtlsSetup ain aout usr usrLen (some c) thr).mtls.zEnd =
        (if c.zEnd = 0 then max dZ 1 else c.zEnd)) ∧
    (((c.xEnd ≠ 0 ∧ rsMin dX c.xEnd ≤ rsMin dX c.xStart) ∨
      (c.yEnd ≠ 0 ∧ rsMin dY c.yEnd ≤ rsMin dY c.yStart) ∨
      (c.zEnd ≠ 0 ∧ rsMin dZ c.zEnd ≤ rsMin dZ c.zStart)) →
      (forEachMtlsSetup ain aout usr usrLen (some c) thr).err = none ∧
      kernelInvocations
        (forEachMtlsSetup ain aout usr usrLen (some c) thr).mtls = 0) := by
  constructor
  · intro hx hy hz
    have hax : axisSetup dX (subFor (some c) (fun q => (q.xStart, q.xEnd))) =
        ⟨(if c.xEnd = 0 then 0 else c.xStart),
         (if c.xEnd = 0 then dX else c.xEnd), 0, false⟩ := by
      by_cases ex : c.xEnd = 0
      · simp [subFor, ex, axisSetup_none]
      · obtain ⟨h1, h2⟩ := hx ex
        simp [subFor, ex, axisSetup_good _ _ _ h1 h2]
    have hay : axisSetup dY (subFor (some c) (fun q => (q.yStart, q.yEnd))) =
        ⟨(if c.yEnd = 0 then 0 else c.yStart),
         (if c.yEnd = 0 then dY else c.yEnd), 0, false⟩ := by
      by_cases ey : c.yEnd = 0
      · simp [subFor, ey, axisSetup_none]
      · obtain ⟨h1, h2⟩ := hy ey
        simp [subFor, ey, axisSetup_good _ _ _ h1 h2]
    have haz : axisSetup dZ (subFor (some c) (fun q => (q.zStart, q.zEnd))) =
        ⟨(if c.zEnd = 0 then 0 else c.zStart),
         (if c.zEnd = 0 then dZ else c.zEnd), 0, false⟩ := by
      by_cases ez : c.zEnd = 0
      · simp [subFor, ez, axisSetup_none]
      · obtain ⟨h1, h2⟩ := hz ez
        simp [subFor, ez, axisSetup_good _ _ _ h1 h2]
    simp only [forEachMtlsSetup, hin, hout, hdims, hax, hay, haz]
    refine ⟨by simp, by simp, ?_, by simp, ?_, by simp, ?_⟩
    · by_cases ex : c.xEnd = 0
      · simp [ex, rsMax_eq_max, Nat.max_comm]
      · obtain ⟨h1, h2⟩ := hx ex
        have : rsMax 1 c.xEnd = c.xEnd := by unfold rsMax; split <;> omega
        simp [ex, this]
    · by_cases ey : c.yEnd = 0
      · simp [ey, rsMax_eq_max, Nat.max_comm]
      · obtain ⟨h1, h2⟩ := hy ey
        have : rsMax 1 c.yEnd = c.yEnd := by unfold rsMax; split <;> omega
        simp [ey, this]
    · by_cases ez : c.zEnd = 0
      · simp [ez, rsMax_eq_max, Nat.max_comm]
      · obtain ⟨h1, h2⟩ := hz ez
        have : rsMax 1 c.zEnd = c.zEnd := by unfold rsMax; split <;> omega
        simp [ez, this]
  · intro hemp
    by_cases hA :
        (axisSetup dX (subFor (some c) (fun q => (q.xStart, q.xEnd)))).earlyRet = true
    · simp [forEachMtlsSetup, hin, hout, hdims, hA, kernelInvocations,
        zeroMTLaunch]
    · by_cases hB :
          (axisSetup dY (subFor (some c) (fun q => (q.yStart, q.yEnd)))).earlyRet = true
      · simp [forEachMtlsSetup, hin, hout, hdims, hA, hB, kernelInvocations,
          zeroMTLaunch]
      · by_cases hC :
            (axisSetup dZ (subFor (some c) (fun q => (q.zStart, q.zEnd)))).earlyRet = true
        · have hle := axisSetup_e_le_s_of_early dZ
            (subFor (some c) (fun q => (q.zStart, q.zEnd))) hC
          refine ⟨?_, ?_⟩ <;>
            simp [forEachMtlsSetup, hin, hout, hdims, hA, hB, hC,
              kernelInvocations, zeroMTLaunch, Nat.sub_eq_zero_of_le hle]
        · exfalso
          rcases hemp with ⟨hne, hcl⟩ | ⟨hne, hcl⟩ | ⟨hne, hcl⟩
          · apply hA
            have hs : subFor (some c) (fun q => (q.xStart, q.xEnd)) =
                some (c.xStart, c.xEnd) := by simp [subFor, hne]
            rw [hs]
            exact (axisSetup_early _ _ _ hcl).1
          · apply hB
            have hs : subFor (some c) (fun q => (q.yStart, q.yEnd)) =
                some (c.yStart, c.yEnd) := by simp [subFor, hne]
            rw [hs]
            exact (axisSetup_early _ _ _ hcl).1
          · apply hC
            have hs : subFor (some c) (fun q => (q.zStart, q.zEnd)) =
                some (c.zStart, c.zEnd) := by simp [subFor, hne]
            rw [hs]
            exact (axisSetup_early _ _ _ hcl).1

/-- C2 witness: on a backed 10x4x0 input buffer, the sub-region
    (2,7)x(1,3) with unrestricted z yields exactly the clamped domain; the
    sub-region (5,5) on x yields an error-free launch with zero kernel
    invocations. -/
theorem c2_subregion_domain_witness :
    (forEachMtlsSetup (some ⟨some 100, 10, 4, 0, 4, 40⟩) none none 0
      (some ⟨2, 7, 1, 3, 0, 0⟩) true).err = none ∧
    (forEachMtlsSetup (some ⟨some 100, 10, 4, 0, 4, 40⟩) none none 0
      (some ⟨2, 7, 1, 3, 0, 0⟩) true).mtls.xStart = 2 ∧
    (forEachMtlsSetup (some ⟨some 100, 10, 4, 0, 4, 40⟩) none none 0
      (some ⟨2, 7, 1, 3, 0, 0⟩) true).mtls.xEnd = 7 ∧
    (forEachMtlsSetup (some ⟨some 100, 10, 4, 0, 4, 40⟩) none none 0
      (some ⟨2, 7, 1, 3, 0, 0⟩) true).mtls.yStart = 1 ∧
    (forEachMtlsSetup (some ⟨some 100, 10, 4, 0, 4, 40⟩) none none 0
      (some ⟨2, 7, 1, 3, 0, 0⟩) true).mtls.yEnd = 3 ∧
    (forEachMtlsSetup (some ⟨some 100, 10, 4, 0, 4, 40⟩) none none 0
      (some ⟨2, 7, 1, 3, 0, 0⟩) true).mtls.zStart = 0 ∧
    (forEachMtlsSetup (some ⟨some 100, 10, 4, 0, 4, 40⟩) none none 0
      (some ⟨2, 7, 1, 3, 0, 0⟩) true).mtls.zEnd = 1 ∧
    (forEachMtlsSetup (some ⟨some 100, 10, 4, 0, 4, 40⟩) none none 0
      (some ⟨5, 5, 0, 0, 0, 0⟩) true).err = none ∧
    kernelInvocations (forEachMtlsSetup (some ⟨some 100, 10, 4, 0, 4, 40⟩)
      none none 0 (some ⟨5, 5, 0, 0, 0, 0⟩) true).mtls = 0 := by
  have h1 := (c2_subregion_domain (some ⟨some 100, 10, 4, 0, 4, 40⟩) none
    none 0 true ⟨2, 7, 1, 3, 0, 0⟩ 10 4 0 rfl rfl rfl).1
    (by decide) (by decide) (by decide)
  have h2 := (c2_subregion_domain (some ⟨some 100, 10, 4, 0, 4, 40⟩) none
    none 0 true ⟨5, 5, 0, 0, 0, 0⟩ 10 4 0 rfl rfl rfl).2
    (Or.inl (by decide))
  obtain ⟨e1, x1, x2, y1, y2, z1, z2⟩ := h1
  exact ⟨e1, by simpa using x1, by simpa using x2, by simpa using y1,
    by simpa using y2, by simpa using z1, by simpa using z2, h2.1, h2.2⟩

/-! Reference-count bookkeeping lemmas. -/

theorem incRefs_apply (l : List Nat) (refs : Nat → Int) (o : Nat) :
    incRefs refs l o = refs o + l.count o := by
  induction l generalizing refs with
  | nil => simp [incRefs]
  | cons a t ih =>
    rw [show incRefs refs (a :: t) = incRefs (bumpRef refs a 1) t from rfl,
      ih]
    by_cases h : o = a
    · subst h
      simp [bumpRef, List.count_cons]
      omega
    · simp [bumpRef, h, List.count_cons, Ne.symm h]

theorem decRefs_apply (l : List Nat) (refs : Nat → Int) (o : Nat) :
    decRefs refs l o = refs o - l.count o := by
  induction l generalizing refs with
  | nil => simp [decRefs]
  | cons a t ih =>
    rw [show decRefs refs (a :: t) = decRefs (bumpRef refs a (-1)) t from rfl,
      ih]
    by_cases h : o = a
    · subst h
      simp [bumpRef, List.count_cons]
      omega
    · simp [bumpRef, h, List.count_cons, Ne.symm h]

/-- C3: for a present object-typed slot and a single-dimensional transfer
    (dimLength/sizeof(int) = 1), setGlobalVarWithElemDims issues all
    increments of the incoming elements strictly before any decrement of
    the outgoing elements, nets the count of each object to
    old + (incoming occurrences) - (outgoing occurrences), and therefore
    leaves every reference count unchanged on a self-overwrite; the memcpy
    installs the incoming data. -/
theorem c3_inc_before_dec (data curSlot : List (List Nat))
    (dims0 dimBytes : Nat) (refs : Nat → Int) (hdim : dimBytes / 4 = 1) :
    ((setGlobalVarWithElemDims true data curSlot dims0 dimBytes refs).trace =
      (data.take dims0).flatten.map RefEv.incEv ++
      (curSlot.take dims0).flatten.map RefEv.decEv) ∧
    (∀ o, (setGlobalVarWithElemDims true data curSlot dims0 dimBytes
        refs).refs o =
      refs o + ((data.take dims0).flatten.count o : Int) -
        ((curSlot.take dims0).flatten.count o : Int)) ∧
    (data = curSlot →
      ∀ o, (setGlobalVarWithElemDims true data curSlot dims0 dimBytes
        refs).refs o = refs o) ∧
    (setGlobalVarWithElemDims true data curSlot dims0 dimBytes
      refs).slotData = data := by
  have hres : setGlobalVarWithElemDims true data curSlot dims0 dimBytes refs =
      ⟨decRefs (incRefs refs (data.take dims0).flatten)
        (curSlot.take dims0).flatten, data,
        (data.take dims0).flatten.map RefEv.incEv ++
          (curSlot.take dims0).flatten.map RefEv.decEv, 0⟩ := by
    simp [setGlobalVarWithElemDims, hdim]
  refine ⟨by rw [hres], ?_, ?_, by rw [hres]⟩
  · intro o
    rw [hres]
    show decRefs (incRefs refs (data.take dims0).flatten)
      (curSlot.take dims0).flatten o = _
    rw [decRefs_apply, incRefs_apply]
  · intro hself o
    subst hself
    rw [hres]
    show decRefs (incRefs refs (data.take dims0).flatten)
      (data.take dims0).flatten o = _
    rw [decRefs_apply, incRefs_apply]
    omega

/-- C3 witness: a self-overwrite of a two-element object array leaves the
    count of object 5 at its old value 2. -/
theorem c3_inc_before_dec_witness :
    (setGlobalVarWithElemDims true [[5], [6]] [[5], [6]] 2 4
      (fun _ => 2)).refs 5 = 2 :=
  (c3_inc_before_dec [[5], [6]] [[5], [6]] 2 4 (fun _ => 2) rfl).2.2.1 rfl 5

/-- C8 counterexample: a two-dimensional request (dimLength of 8 bytes,
    i.e. 2 ints) still copies the incoming bytes over the slot: the slot
    contents change from [[1]] to the incoming [[2]] even though the
    dimensionality assertion failed, refuting "performs no transfer into
    the slot". -/
theorem c8_counterexample :
    (setGlobalVarWithElemDims true [[2]] [[1]] 1 8 (fun _ => 0)).slotData =
      [[2]] ∧
    (setGlobalVarWithElemDims true [[2]] [[1]] 1 8
      (fun _ => 0)).assertFails = 1 ∧
    ([[2]] : List (List Nat)) ≠ [[1]] := by
  exact ⟨rfl, rfl, by decide⟩

/-- C8 amended: a multi-dimensional request fails the (log-only)
    dimensionality assertion and performs no reference-count transfer, but
    the trailing memcpy still copies the raw incoming bytes over the slot;
    reference counts are untouched. -/
theorem c8_multidim_copies_without_refs (data curSlot : List (List Nat))
    (dims0 dimBytes : Nat) (refs : Nat → Int) (hdim : dimBytes / 4 ≠ 1) :
    (setGlobalVarWithElemDims true data curSlot dims0 dimBytes
      refs).assertFails = 1 ∧
    (setGlobalVarWithElemDims true data curSlot dims0 dimBytes
      refs).trace = [] ∧
    (setGlobalVarWithElemDims true data curSlot dims0 dimBytes
      refs).refs = refs ∧
    (setGlobalVarWithElemDims true data curSlot dims0 dimBytes
      refs).slotData = data := by
  simp [setGlobalVarWithElemDims, hdim]

/-- C8 amended witness: the concrete two-dimensional request of the
    counterexample. -/
theorem c8_multidim_copies_without_refs_witness :
    (setGlobalVarWithElemDims true [[2]] [[1]] 1 8
      (fun _ => 0)).assertFails = 1 ∧
    (setGlobalVarWithElemDims true [[2]] [[1]] 1 8 (fun _ => 0)).trace =
      [] ∧
    (setGlobalVarWithElemDims true [[2]] [[1]] 1 8 (fun _ => 0)).refs =
      (fun _ => 0) ∧
    (setGlobalVarWithElemDims true [[2]] [[1]] 1 8 (fun _ => 0)).slotData =
      [[2]] :=
  c8_multidim_copies_without_refs [[2]] [[1]] 1 8 (fun _ => 0) (by decide)

/-- C6 evaluation at the failing inputs (RS_COMPATIBILITY_LIB branch of
    forEachKernelSetup): a slot at/beyond the kernel count performs an
    unchecked out-of-bounds read of mForEachFunctions (no bounds assertion
    exists in this branch), and a null kernel pointer at an in-range slot
    yields a produced descriptor with kernel = NULL and only a log-only
    failed assertion - no fatal invariant violation in either case. -/
theorem c6_kernelSetup_failing_input :
    forEachKernelSetup [some 7] [0] 1 zeroMTLaunch =
      KernelSetupOutcome.oobRead ∧
    forEachKernelSetup [none] [0] 0 zeroMTLaunch =
      KernelSetupOutcome.done
        { zeroMTLaunch with slot := 0, kernel := none, sig := 0 } 1 :=
  ⟨rfl, rfl⟩

/-- C9 counterexample: invokeInit performs its native call with no write to
    the thread-local "currently executing script" reference at all - its
    event trace is exactly the bare native call - refuting "every
    invocation wrapper ... sets the thread-local ... before the native
    call" for the init wrapper. -/
theorem c9_counterexample :
    (invokeInit true (some 3)).2 = [CallEv.nativeEv "init"] ∧
    ((invokeInit true (some 3)).2.all fun e =>
      match e with
      | CallEv.setTLSEv _ => false
      | CallEv.nativeEv _ => true) = true :=
  ⟨rfl, rfl⟩

/-- C9 amended: invokeRoot, invokeFunction and invokeForEach bracket the
    native call with a save/set of the thread-local and restore the saved
    value afterwards (the value observed before and after is identical);
    invokeInit and invokeFreeChildren call the native function directly and
    never touch the thread-local (so it is trivially unchanged). -/
theorem c9_tls_pairing (self slot : Nat) (rootRet : Int)
    (tls0 : Option Nat) (mi mf : Bool) (ain aout : Option AllocationModel)
    (usr : Option Nat) (usrLen : Nat) (sc : Option RsScriptCall)
    (thr : Bool) (fns : List (Option Nat)) (sigs : List Nat) :
    (invokeRoot self rootRet tls0).2.1 = tls0 ∧
    (invokeRoot self rootRet tls0).2.2 =
      [CallEv.setTLSEv (some self), CallEv.nativeEv "root",
        CallEv.setTLSEv tls0] ∧
    (invokeFunction self slot tls0).1 = tls0 ∧
    (invokeFunction self slot tls0).2 =
      [CallEv.setTLSEv (some self), CallEv.nativeEv "invokeFunction",
        CallEv.setTLSEv tls0] ∧
    (invokeForEach self slot ain aout usr usrLen sc thr fns sigs
      tls0).1 = tls0 ∧
    (invokeForEach self slot ain aout usr usrLen sc thr fns sigs
      tls0).2.1 =
      [CallEv.setTLSEv (some self), CallEv.nativeEv "launchThreads",
        CallEv.setTLSEv tls0] ∧
    (invokeInit mi tls0).1 = tls0 ∧
    (invokeInit mi tls0).2 =
      (if mi then [CallEv.nativeEv "init"] else []) ∧
    (invokeFreeChildren mf tls0).1 = tls0 ∧
    (invokeFreeChildren mf tls0).2 =
      (if mf then [CallEv.nativeEv ".rs.dtor"] else []) := by
  cases mi <;> cases mf <;>
    exact ⟨rfl, rfl, rfl, rfl, rfl, rfl, rfl, rfl, rfl, rfl⟩

/-! Loader cleanup lemmas. -/

theorem errorTrace_balanced (f : AllocFlags) (so : Bool) :
    (∀ a : Arr,
      (allocEvents f ++ freeEvents f ++
        (if so then [Ev.dlclose] else [])).count (Ev.alloc a) =
      (allocEvents f ++ freeEvents f ++
        (if so then [Ev.dlclose] else [])).count (Ev.free a) ∧
      (allocEvents f ++ freeEvents f ++
        (if so then [Ev.dlclose] else [])).count (Ev.alloc a) ≤ 1) ∧
    (allocEvents f ++ freeEvents f ++
      (if so then [Ev.dlclose] else [])).count Ev.dlclose =
      (if so then 1 else 0) := by
  obtain ⟨b1, b2, b3, b4, b5, b6⟩ := f
  cases b1 <;> cases b2 <;> cases b3 <;> cases b4 <;> cases b5 <;>
    cases b6 <;> cases so <;> decide

/-- C4: on every failing init run (any failure point of module load or
    metadata parsing), each of the six symbol-table arrays is released
    exactly as many times as it was allocated (and at most once), the
    mapped module handle is dlclosed exactly when one was mapped, and no
    symbol table is retained. -/
theorem c4_cleanup (inp : InitInput) (h : (init inp).ok = false) :
    (∀ a : Arr, (init inp).trace.count (Ev.alloc a) =
        (init inp).trace.count (Ev.free a) ∧
      (init inp).trace.count (Ev.alloc a) ≤ 1) ∧
    ((init inp).trace.count Ev.dlclose = if inp.soLoads then 1 else 0) ∧
    (init inp).table = none := by
  cases hE : initE inp with
  | error e =>
    obtain ⟨f, af⟩ := e
    have hinit : init inp = mkError f inp.soLoads af := by
      simp [init, hE]
    rw [hinit]
    exact ⟨(errorTrace_balanced f inp.soLoads).1,
      (errorTrace_balanced f inp.soLoads).2, rfl⟩
  | ok v =>
    exfalso
    obtain ⟨f, t, af⟩ := v
    have hok : (init inp).ok = true := by simp [init, hE]
    rw [h] at hok
    exact Bool.noConfusion hok

/-- C4 witness: a load whose export-variable section ends prematurely
    (varCount 2 but one line) releases the two arrays allocated before the
    failure and closes the handle. -/
theorem c4_cleanup_witness :
    ((init ⟨true, some 2, [some (some 1)], none, [], some 0, [], some 0,
        []⟩).trace.count (Ev.alloc Arr.fieldAddress) =
      (init ⟨true, some 2, [some (some 1)], none, [], some 0, [], some 0,
        []⟩).trace.count (Ev.free Arr.fieldAddress)) ∧
    (init ⟨true, some 2, [some (some 1)], none, [], some 0, [], some 0,
      []⟩).trace.count Ev.dlclose = 1 ∧
    (init ⟨true, some 2, [some (some 1)], none, [], some 0, [], some 0,
      []⟩).table = none := by
  have h := c4_cleanup
    ⟨true, some 2, [some (some 1)], none, [], some 0, [], some 0, []⟩
    (by decide)
  exact ⟨(h.1 Arr.fieldAddress).1, h.2.1, h.2.2⟩

/-! ForEach-section parsing lemmas. -/

theorem readForEach_none_of_null (i : Nat) :
    ∀ (k n : Nat) (entries : List (Option (Nat × Option Nat))) (s : Nat),
    i < n → k + i ≠ 0 → entries[i]? = some (some (s, none)) →
    readForEach k n entries = none := by
  induction i with
  | zero =>
    intro k n entries s hn hk hi
    cases n with
    | zero => omega
    | succ m =>
      cases entries with
      | nil => simp at hi
      | cons e rest =>
        simp at hi
        subst hi
        have hcond : k ≠ 0 ∧ (none : Option Nat) = none := ⟨by omega, rfl⟩
        simp [readForEach, hcond]
  | succ j ih =>
    intro k n entries s hn hk hi
    cases n with
    | zero => omega
    | succ m =>
      cases entries with
      | nil => simp at hi
      | cons e rest =>
        cases e with
        | none => simp [readForEach]
        | some p =>
          obtain ⟨s', a'⟩ := p
          have hrest : rest[j]? = some (some (s, none)) := by
            simpa using hi
          have hr := ih (k + 1) m rest s (by omega) (by omega) hrest
          simp [readForEach, hr]

theorem readForEach_some_of_resolved (n : Nat) :
    ∀ (k : Nat) (entries : List (Option (Nat × Option Nat))),
    (∀ j, j < n → ∃ s a, entries[j]? = some (some (s, a)) ∧
      (k + j = 0 ∨ a ≠ none)) →
    ∃ l, readForEach k n entries = some l := by
  induction n with
  | zero => exact fun k entries _ => ⟨[], rfl⟩
  | succ m ih =>
    intro k entries hall
    obtain ⟨s, a, h0, hcase⟩ := hall 0 (Nat.succ_pos m)
    cases entries with
    | nil => simp at h0
    | cons e rest =>
      simp at h0
      subst h0
      have hrest : ∀ j, j < m → ∃ s' a', rest[j]? = some (some (s', a')) ∧
          ((k + 1) + j = 0 ∨ a' ≠ none) := by
        intro j hj
        obtain ⟨s', a', hj', hc⟩ := hall (j + 1) (by omega)
        refine ⟨s', a', by simpa using hj', ?_⟩
        rcases hc with h | h
        · left
          omega
        · right
          exact h
      obtain ⟨l, hl⟩ := ih (k + 1) rest hrest
      have hcond : ¬ (k ≠ 0 ∧ a = none) := by
        rcases hcase with h | h
        · intro hq
          exact hq.1 (by omega)
        · intro hq
          exact h hq.2
      exact ⟨(s, a) :: l, by simp [readForEach, hcond, hl]⟩

theorem initE_ok_readForEach (inp : InitInput) (f : AllocFlags)
    (t : SymbolTable) (af : Nat) (h : initE inp = Except.ok (f, t, af)) :
    ∃ fc fePairs, inp.forEachCount? = some fc ∧
      readForEach 0 fc inp.forEachEntries = some fePairs := by
  unfold initE at h
  split at h
  · exact Except.noConfusion h
  split at h
  · exact Except.noConfusion h
  split at h
  · exact Except.noConfusion h
  split at h
  · exact Except.noConfusion h
  split at h
  · exact Except.noConfusion h
  split at h
  · exact Except.noConfusion h
  split at h
  · exact Except.noConfusion h
  exact ⟨_, _, by assumption, by assumption⟩

/-- C5: a missing ".expand" kernel symbol is tolerated only at slot 0:
    (a) whenever a declared kernel at slot i > 0 has a null dlsym result
    for its expanded symbol, init fails; (b) a load whose slot 0 expanded
    symbol is null but whose other sections and kernels all resolve
    succeeds. -/
theorem c5_expanded_slot_policy :
    (∀ (inp : InitInput) (i fc s : Nat),
      inp.forEachCount? = some fc → i < fc → i ≠ 0 →
      inp.forEachEntries[i]? = some (some (s, none)) →
      (init inp).ok = false) ∧
    (∀ (inp : InitInput) (vc fn fc oc s : Nat)
      (va : List (Option Nat)) (fns : List Nat) (nums : List Nat),
      inp.soLoads = true →
      inp.varCount? = some vc → readVars vc inp.varEntries = some va →
      inp.funcCount? = some fn → readFuncs fn inp.funcEntries = some fns →
      inp.forEachCount? = some fc → 0 < fc →
      inp.forEachEntries[0]? = some (some (s, none)) →
      (∀ j, 0 < j → j < fc →
        ∃ sj pj, inp.forEachEntries[j]? = some (some (sj, some pj))) →
      inp.objectSlotCount? = some oc →
      readObjSlots oc inp.objectSlotEntries = some nums →
      (init inp).ok = true) := by
  constructor
  · intro inp i fc s hfc hi hne hent
    cases hE : initE inp with
    | error e =>
      obtain ⟨f, af⟩ := e
      simp [init, hE, mkError]
    | ok v =>
      exfalso
      obtain ⟨f, t, af⟩ := v
      obtain ⟨fc', fe, hfc', hre⟩ := initE_ok_readForEach inp f t af hE
      rw [hfc] at hfc'
      obtain rfl : fc = fc' := by injection hfc'
      rw [readForEach_none_of_null i 0 fc inp.forEachEntries s hi
        (by omega) hent] at hre
      exact Option.noConfusion hre
  · intro inp vc fn fc oc s va fns nums hso hvc hrv hfn hrf hfc hfcpos h0
      hres hoc hro
    have hall : ∀ j, j < fc →
        ∃ s' a, inp.forEachEntries[j]? = some (some (s', a)) ∧
          (0 + j = 0 ∨ a ≠ none) := by
      intro j hj
      cases j with
      | zero => exact ⟨s, none, h0, Or.inl rfl⟩
      | succ m =>
        obtain ⟨sj, pj, hjq⟩ := hres (m + 1) (Nat.succ_pos m) hj
        exact ⟨sj, some pj, hjq, Or.inr (by simp)⟩
    obtain ⟨fe, hre⟩ :=
      readForEach_some_of_resolved fc 0 inp.forEachEntries hall
    have hE : initE inp = Except.ok
        ({ fieldIsObject := vc != 0, fieldAddress := vc != 0,
           invokeFunctions := fn != 0, forEachSignatures := fc != 0,
           forEachFunctions := fc != 0, boundAllocs := vc != 0 },
         ⟨applyObjSlots vc (List.replicate vc false) nums, va, fns,
           fe.map Prod.fst, fe.map Prod.snd, vc, fn⟩,
         if oc ≠ 0 ∧ vc = 0 then 1 else 0) := by
      simp only [initE, hso, hvc, hrv, hfn, hrf, hfc, hre, hoc, hro,
        Bool.not_true, noAllocs]
      rfl
    simp [init, hE]

/-- C5 witness: a load with a null expanded symbol at kernel slot 1 fails;
    a load with a null expanded symbol only at kernel slot 0 (and all other
    sections resolving) succeeds. -/
theorem c5_expanded_slot_policy_witness :
    (init ⟨true, some 0, [], some 0, [], some 2,
      [some (1, some 7), some (5, none)], some 0, []⟩).ok = false ∧
    (init ⟨true, some 1, [some (some 10)], some 0, [], some 2,
      [some (1, none), some (2, some 20)], some 1, [some 0]⟩).ok = true := by
  constructor
  · exact c5_expanded_slot_policy.1
      ⟨true, some 0, [], some 0, [], some 2,
        [some (1, some 7), some (5, none)], some 0, []⟩ 1 2 5 rfl
      (by decide) (by decide) rfl
  · refine c5_expanded_slot_policy.2
      ⟨true, some 1, [some (some 10)], some 0, [], some 2,
        [some (1, none), some (2, some 20)], some 1, [some 0]⟩
      1 0 2 1 1 [some 10] [] [0] rfl rfl rfl rfl rfl rfl (by decide) rfl
      ?_ rfl rfl
    intro j hj1 hj2
    have hj : j = 1 := by omega
    subst hj
    exact ⟨2, 20, rfl⟩

/-! Object-slot application lemmas. -/

theorem applyObjSlots_length (vc : Nat) (fl : List Bool) (nums : List Nat) :
    (applyObjSlots vc fl nums).length = fl.length := by
  induction nums generalizing fl with
  | nil => rfl
  | cons n t ih =>
    show (applyObjSlots vc (if n < vc then fl.set n true else fl) t).length =
      fl.length
    rw [ih]
    split <;> simp

theorem applyObjSlots_filter (vc : Nat) (fl : List Bool) (nums : List Nat) :
    applyObjSlots vc fl nums =
      applyObjSlots vc fl (nums.filter (fun n => decide (n < vc))) := by
  induction nums generalizing fl with
  | nil => rfl
  | cons n t ih =>
    by_cases h : n < vc
    · show applyObjSlots vc (if n < vc then fl.set n true else fl) t = _
      rw [if_pos h, List.filter_cons, if_pos (by simpa using h)]
      show _ = applyObjSlots vc (if n < vc then fl.set n true else fl) _
      rw [if_pos h]
      exact ih (fl.set n true)
    · show applyObjSlots vc (if n < vc then fl.set n true else fl) t = _
      rw [if_neg h, List.filter_cons, if_neg (by simpa using h)]
      exact ih fl

/-- C10: a metadata object-slot record whose variable index is at or beyond
    the declared export variable count is silently skipped: the load still
    succeeds, the produced object-flag vector is exactly the one obtained
    from the in-range records alone (the out-of-range record sets nothing),
    it keeps length varCount (no write outside the vector), and the
    offending index is not among the applied records. -/
theorem c10_objslot_out_of_range (inp : InitInput) (vc fn fc oc : Nat)
    (va : List (Option Nat)) (fns : List Nat)
    (fe : List (Nat × Option Nat)) (nums : List Nat) (num : Nat)
    (hso : inp.soLoads = true)
    (hvc : inp.varCount? = some vc)
    (hrv : readVars vc inp.varEntries = some va)
    (hfn : inp.funcCount? = some fn)
    (hrf : readFuncs fn inp.funcEntries = some fns)
    (hfc : inp.forEachCount? = some fc)
    (hre : readForEach 0 fc inp.forEachEntries = some fe)
    (hoc : inp.objectSlotCount? = some oc)
    (hro : readObjSlots oc inp.objectSlotEntries = some nums)
    (hmem : num ∈ nums) (hge : vc ≤ num) :
    (init inp).ok = true ∧
    (init inp).table = some
      ⟨applyObjSlots vc (List.replicate vc false)
          (nums.filter (fun n => decide (n < vc))), va, fns,
        fe.map Prod.fst, fe.map Prod.snd, vc, fn⟩ ∧
    (applyObjSlots vc (List.replicate vc false) nums).length = vc ∧
    num ∉ nums.filter (fun n => decide (n < vc)) := by
  have hE : initE inp = Except.ok
      ({ fieldIsObject := vc != 0, fieldAddress := vc != 0,
         invokeFunctions := fn != 0, forEachSignatures := fc != 0,
         forEachFunctions := fc != 0, boundAllocs := vc != 0 },
       ⟨applyObjSlots vc (List.replicate vc false) nums, va, fns,
         fe.map Prod.fst, fe.map Prod.snd, vc, fn⟩,
       if oc ≠ 0 ∧ vc = 0 then 1 else 0) := by
    simp only [initE, hso, hvc, hrv, hfn, hrf, hfc, hre, hoc, hro,
      Bool.not_true, noAllocs]
    rfl
  refine ⟨by simp [init, hE], ?_, ?_, ?_⟩
  · rw [← applyObjSlots_filter]
    simp [init, hE]
  · rw [applyObjSlots_length, List.length_replicate]
  · intro hmemf
    rw [List.mem_filter] at hmemf
    have := hmemf.2
    simp at this
    omega

/-- C10 witness: with one exported variable, the object-slot record 5 is
    out of range; the load succeeds and the object-flag vector stays
    [false]. -/
theorem c10_objslot_out_of_range_witness :
    (init ⟨true, some 1, [some (some 10)], some 0, [], some 0, [], some 1,
      [some 5]⟩).ok = true ∧
    (init ⟨true, some 1, [some (some 10)], some 0, [], some 0, [], some 1,
      [some 5]⟩).table = some ⟨[false], [some 10], [], [], [], 1, 0⟩ := by
  have h := c10_objslot_out_of_range
    ⟨true, some 1, [some (some 10)], some 0, [], some 0, [], some 1,
      [some 5]⟩ 1 0 0 1 [some 10] [] [] [5] 5
    rfl rfl rfl rfl rfl rfl rfl rfl rfl (by decide) (by decide)
  exact ⟨h.1, h.2.1⟩

/-! Random-suffix and instancing lemmas. -/

theorem randChar_mod (r : Nat) : randChar r = randChar (r % 65536 % 62) := by
  have h2 : r % 65536 % 62 % 65536 = r % 65536 % 62 := by omega
  have h3 : r % 65536 % 62 % 62 = r % 65536 % 62 := by omega
  simp only [randChar, h2, h3]

theorem randChar_fin_mem : ∀ a : Fin 62, randChar a.val ∈ alphabet62 := by
  decide

theorem randChar_mem (r : Nat) : randChar r ∈ alphabet62 := by
  rw [randChar_mod]
  exact randChar_fin_mem ⟨r % 65536 % 62, by omega⟩

theorem randChar_fin_inj :
    ∀ a b : Fin 62, randChar a.val = randChar b.val → a = b := by
  decide

theorem vecString_injective : Function.Injective vecString := by
  intro v w h
  have hd := congrArg String.data h
  funext j
  have hj := congrArg (fun l => l[j.val]?) hd
  simp only [vecString, getRandomString, List.getElem?_map,
    List.getElem?_range, j.isLt, dif_pos, Fin.eta] at hj
  exact randChar_fin_inj (v j) (w j) (by simpa using hj)

/-- C7: the instancing alias machinery. (1) The randomized-suffix map is
    injective over residue vectors, (2) whose namespace has at least 10^10
    elements (62^6), (3) every residue vector is realized by concrete
    arc4random draws, (4) every produced suffix has the stated length with
    all characters from the 62-symbol alphabet; (5) a load of an artifact
    already in the loaded set creates the randomized alias, maps through
    it, and unlinks it before returning, leaving the filesystem entries
    exactly as before; (6) a first load maps the artifact directly with no
    alias activity. -/
theorem c7_instancing_alias :
    Function.Injective vecString ∧
    (10 : Nat) ^ 10 ≤ Fintype.card (Fin 6 → Fin 62) ∧
    (∀ v : Fin 6 → Fin 62,
      getRandomString (fun i => if h : i < 6 then (v ⟨i, h⟩).val else 0) 6 =
        vecString v) ∧
    (∀ (draws : Nat → Nat) (len : Nat),
      (getRandomString draws len).length = len ∧
      ∀ ch ∈ (getRandomString draws len).data, ch ∈ alphabet62) ∧
    (∀ (orig dir res : String) (draws : Nat → Nat)
      (dlo : String → Option Nat) (st : SOState) (h : Nat),
      orig ∈ st.fsEntries → orig ∈ st.loadedLibraries →
      aliasSOName dir res (getRandomString draws 6) ∉ st.fsEntries →
      dlo (aliasSOName dir res (getRandomString draws 6)) = some h →
      loadSOHelper orig dir res draws dlo true st =
        (some h,
          ⟨st.fsEntries,
            aliasSOName dir res (getRandomString draws 6) ::
              st.loadedLibraries⟩,
          [SOEv.symlinkEv (aliasSOName dir res (getRandomString draws 6))
              orig,
            SOEv.dlopenEv (aliasSOName dir res (getRandomString draws 6)),
            SOEv.unlinkEv
              (aliasSOName dir res (getRandomString draws 6))])) ∧
    (∀ (orig dir res : String) (draws : Nat → Nat)
      (dlo : String → Option Nat) (cdo : Bool) (st : SOState),
      orig ∈ st.fsEntries → orig ∉ st.loadedLibraries →
      (loadSOHelper orig dir res draws dlo cdo st).1 = dlo orig ∧
      (loadSOHelper orig dir res draws dlo cdo st).2.1.fsEntries =
        st.fsEntries ∧
      (loadSOHelper orig dir res draws dlo cdo st).2.2 =
        [SOEv.dlopenEv orig]) := by
  refine ⟨vecString_injective, ?_, fun v => rfl, ?_, ?_, ?_⟩
  · simp only [Fintype.card_fun, Fintype.card_fin]
    norm_num
  · intro draws len
    constructor
    · simp [getRandomString, String.length]
    · intro ch hch
      simp only [getRandomString, List.mem_map] at hch
      obtain ⟨i, _, hi⟩ := hch
      rw [← hi]
      exact randChar_mem (draws i)
  · intro orig dir res draws dlo st h h1 h2 h3 h4
    simp only [loadSOHelper, h1, h2, h3, h4, not_true, not_false_iff,
      if_neg, if_pos, ite_false, ite_true]
    simp [h1, h2, h3, List.erase_cons_head]
  · intro orig dir res draws dlo cdo st h1 h2
    simp only [loadSOHelper]
    rw [if_neg (by simpa using h1), if_pos (by simpa using h2)]
    cases hd : dlo orig <;> simp

/-- C7 witness: re-loading an already-loaded artifact goes through the
    freshly named alias and removes it, leaving the filesystem unchanged; a
    first load dlopens the artifact directly. -/
theorem c7_instancing_alias_witness :
    loadSOHelper "/data/lib/librs.foo.so" "d" "r" (fun _ => 0)
      (fun _ => some 1) true
      ⟨["/data/lib/librs.foo.so"], ["/data/lib/librs.foo.so"]⟩ =
      (some 1,
        ⟨["/data/lib/librs.foo.so"],
          aliasSOName "d" "r" (getRandomString (fun _ => 0) 6) ::
            ["/data/lib/librs.foo.so"]⟩,
        [SOEv.symlinkEv (aliasSOName "d" "r"
            (getRandomString (fun _ => 0) 6)) "/data/lib/librs.foo.so",
          SOEv.dlopenEv (aliasSOName "d" "r"
            (getRandomString (fun _ => 0) 6)),
          SOEv.unlinkEv (aliasSOName "d" "r"
            (getRandomString (fun _ => 0) 6))]) ∧
    (loadSOHelper "o" "d" "r" (fun _ => 0) (fun _ => some 2) true
      ⟨["o"], []⟩).1 = some 2 ∧
    (loadSOHelper "o" "d" "r" (fun _ => 0) (fun _ => some 2) true
      ⟨["o"], []⟩).2.2 = [SOEv.dlopenEv "o"] := by
  refine ⟨?_, ?_, ?_⟩
  · exact c7_instancing_alias.2.2.2.2.1 "/data/lib/librs.foo.so" "d" "r"
      (fun _ => 0) (fun _ => some 1)
      ⟨["/data/lib/librs.foo.so"], ["/data/lib/librs.foo.so"]⟩ 1
      (by decide) (by decide) (by decide) rfl
  · exact (c7_instancing_alias.2.2.2.2.2 "o" "d" "r" (fun _ => 0)
      (fun _ => some 2) true ⟨["o"], []⟩ (by decide) (by decide)).1
  · exact (c7_instancing_alias.2.2.2.2.2 "o" "d" "r" (fun _ => 0)
      (fun _ => some 2) true ⟨["o"], []⟩ (by decide) (by decide)).2.2

end RsCpuScript
